import Mathlib

/-!
Shallow embedding of `src/app.py`, the Myntra product-review analyzer.

The program loads a CSV into a dataframe, resolves the review-text column
from a fixed priority list, then for each row formats a prompt, calls the
generative-language service inside a try/except, and appends a result
record; finally the results are serialized with
`pd.DataFrame(results).to_csv(index=False).encode("utf-8")`.

Modelling choices:
  - a dataframe row is an association list from column name to cell value
    (all cell values are strings, matching the CSV origin of the data);
    `row[k]` in Python is `lookupField row k`, whose `none` case models the
    `KeyError` that aborts the whole run when it escapes the try block;
  - the external service `model.generate_content` is a parameter
    `svc : String → Except String String` mapping the prompt to either the
    response text or the raised exception's message (`str(e)`);
  - pandas `to_csv` / `read_csv` are modelled at the text level with the
    csv module's QUOTE_MINIMAL convention (quote a field iff it contains a
    delimiter, a quote or a line-break character; double embedded quotes),
    with a line terminator after every record.  `pd.DataFrame([])` has no
    columns, so `to_csv(index=False)` of an empty result list is a single
    line terminator.
-/

namespace ProductReviewer

/-- One parsed CSV row: an ordered association list column-name ↦ cell. -/
abbrev Row : Type := List (String × String)

/-- Python `row[k]` on a row; `none` models the `KeyError` raised when the
field is absent. -/
def lookupField (row : Row) (k : String) : Option String :=
  row.lookup k

/-- The fixed candidate list `possible_review_cols` from `app.py`. -/
def possible_review_cols : List String :=
  ["review", "review_text", "text", "comment"]

/-- The detection loop: `for col in possible_review_cols: if col in
df.columns: review_col = col; break`. -/
def findReviewCol (cols : List String) : Option String :=
  possible_review_cols.find? (fun c => cols.contains c)

/-- Outcome of the column-resolution step: either the chosen column, or the
error branch (`st.error`, reported with the list of available columns). -/
inductive ColumnResolution where
  | found : String → ColumnResolution
  | columnNotFound : List String → ColumnResolution

/-- Column resolution as performed by `app.py`: run the detection loop; if
no candidate matched, fail carrying `list(df.columns)`. -/
def resolveReviewCol (cols : List String) : ColumnResolution :=
  match findReviewCol cols with
  | some c => ColumnResolution.found c
  | none => ColumnResolution.columnNotFound cols

/-- The prompt f-string before the first placeholder. -/
def promptPre : String :=
  "\n                Analyze this Myntra product review:\n                Review: \""

/-- The prompt f-string between `row[review_col]` and `row['rating']`. -/
def promptMid : String :=
  "\"  # ✅ Dynamic column\n                Rating: "

/-- The prompt f-string after the `rating` placeholder. -/
def promptPost : String :=
  "\n\n                Provide a concise analysis in this exact format:\n                1. Sentiment: (Positive / Negative / Neutral)\n                2. Key points: (Bullet list of 2-3 main pros/cons)\n                3. Recommendation: (Yes / No / Maybe) - Brief reason\n                "

/-- The prompt built for one row (the f-string of `app.py`, verbatim, with
the two interpolation holes filled by the row's review text and rating). -/
def prompt (reviewText rating : String) : String :=
  promptPre ++ reviewText ++ promptMid ++ rating ++ promptPost

/-- Whitespace as stripped by Python `str.strip()` (the ASCII whitespace
characters; the full Unicode table is not needed by any claim). -/
def isSpaceChar (c : Char) : Bool :=
  c == ' ' || c == '\t' || c == '\n' || c == '\r' || c == '\x0b' || c == '\x0c'

/-- Python `s.strip()`: drop leading and trailing whitespace. -/
def strip (s : String) : String :=
  String.mk (((s.data.dropWhile isSpaceChar).reverse.dropWhile isSpaceChar).reverse)

/-- The try/except around `model.generate_content`: on success the trimmed
response text, on any exception the literal error string built from
`str(e)`. -/
def analysisText (svc : String → Except String String) (p : String) : String :=
  match svc p with
  | Except.ok t => strip t
  | Except.error e => "Error: Could not analyze review. (" ++ e ++ ")"

/-- One entry of `results`: the dict appended per row in `app.py`. -/
structure AnalysisResult where
  product_name : String
  review : String
  rating : String
  analysis : String

/-- One iteration of the analysis loop.  The field lookups happen outside
the try block, in source order (`row[review_col]` and `row['rating']` while
building the prompt, then `row["product_name"]` in the appended dict), so a
missing field yields `none`: the unhandled `KeyError`. -/
def analyzeRow (svc : String → Except String String) (review_col : String)
    (row : Row) : Option AnalysisResult := do
  let reviewText ← lookupField row review_col
  let rating ← lookupField row "rating"
  let analysis := analysisText svc (prompt reviewText rating)
  let product_name ← lookupField row "product_name"
  pure { product_name := product_name, review := reviewText,
         rating := rating, analysis := analysis }

/-- The `for i, row in df.iterrows()` loop: build `results` row by row;
`none` models an unhandled exception aborting the run (no partial results
survive the abort). -/
def analyze (svc : String → Except String String) (review_col : String) :
    List Row → Option (List AnalysisResult)
  | [] => some []
  | row :: rest =>
    match analyzeRow svc review_col row with
    | none => none
    | some r =>
      match analyze svc review_col rest with
      | none => none
      | some rs => some (r :: rs)

/-- The same loop instrumented with a clock: `t` is the current time and
`delay` the fixed `time.sleep(0.5)` after each row.  Only the clock
component depends on them. -/
def analyzeTimed (svc : String → Except String String) (review_col : String)
    (delay : Nat) : List Row → Nat → Option (List AnalysisResult) × Nat
  | [], t => (some [], t)
  | row :: rest, t =>
    match analyzeRow svc review_col row with
    | none => (none, t)
    | some r =>
      match analyzeTimed svc review_col delay rest (t + delay) with
      | (some rs, t2) => (some (r :: rs), t2)
      | (none, t2) => (none, t2)

/-!
CSV serialization, modelling
`pd.DataFrame(results).to_csv(index=False)` (csv.QUOTE_MINIMAL).
-/

/-- A field must be quoted iff it contains the delimiter, the quote
character or a line-break character (csv.QUOTE_MINIMAL). -/
def needsQuoting (s : List Char) : Bool :=
  s.any (fun c => c == ',' || c == '\"' || c == '\n' || c == '\r')

/-- Quote-doubling of a single character inside a quoted field. -/
def escapeChar (c : Char) : List Char :=
  if c == '\"' then ['\"', '\"'] else [c]

/-- A serialized field: quoted with doubled quotes when required. -/
def escapeField (s : List Char) : List Char :=
  if needsQuoting s then '\"' :: (s.map escapeChar).flatten ++ ['\"'] else s

/-- One CSV record: fields joined by the delimiter. -/
def serializeRecord : List (List Char) → List Char
  | [] => []
  | [f] => escapeField f
  | f :: fs => escapeField f ++ ',' :: serializeRecord fs

/-- The column order of `pd.DataFrame(results)`: the key order of the
appended dicts. -/
def csvHeaderFields : List (List Char) :=
  ["product_name".data, "review".data, "rating".data, "analysis".data]

/-- The four cells of one output row, in column order. -/
def resultFields (r : AnalysisResult) : List (List Char) :=
  [r.product_name.data, r.review.data, r.rating.data, r.analysis.data]

/-- `pd.DataFrame(results).to_csv(index=False)`: a header record built from
the frame's columns, then one record per result, each record followed by
the line terminator.  `pd.DataFrame([])` has no columns at all, so the
empty result list yields a bare line terminator, not the four-column
header. -/
def to_csv : List AnalysisResult → List Char
  | [] => ['\n']
  | r :: rs =>
    serializeRecord csvHeaderFields ++ '\n' ::
      ((r :: rs).map (fun x => serializeRecord (resultFields x) ++ ['\n'])).flatten

/-- The downloadable CSV text. -/
def serializeCSV (rs : List AnalysisResult) : String :=
  String.mk (to_csv rs)

/-- UTF-8 encoding of one scalar value (`str.encode("utf-8")`). -/
def utf8EncodeChar (c : Char) : List Nat :=
  let n := c.toNat
  if n < 128 then [n]
  else if n < 2048 then [192 + n / 64, 128 + n % 64]
  else if n < 65536 then [224 + n / 4096, 128 + n / 64 % 64, 128 + n % 64]
  else [240 + n / 262144, 128 + n / 4096 % 64, 128 + n / 64 % 64, 128 + n % 64]

/-- UTF-8 encoding of a string, as the list of its byte values. -/
def utf8Encode (s : String) : List Nat :=
  (s.data.map utf8EncodeChar).flatten

/-- The bytes offered to `st.download_button`:
`result_df.to_csv(index=False).encode("utf-8")`. -/
def csvBytes (rs : List AnalysisResult) : List Nat :=
  utf8Encode (serializeCSV rs)

/-- The data pipeline from parsed rows to downloadable bytes (`none` when
an unhandled per-row exception aborts the run before the download stage). -/
def pipeline (svc : String → Except String String) (review_col : String)
    (rows : List Row) : Option (List Nat) :=
  (analyze svc review_col rows).map csvBytes

/-!
CSV parsing (the `pd.read_csv` direction used to re-parse the output),
modelled as the standard csv text format: records separated by the line
terminator, fields separated by the delimiter, quoted fields with doubled
embedded quotes.
-/

/-- Scan an unquoted field: everything up to the next delimiter or line
terminator (neither consumed). -/
def takeField : List Char → List Char × List Char
  | [] => ([], [])
  | c :: cs =>
    if c == ',' || c == '\n' then ([], c :: cs)
    else
      let p := takeField cs
      (c :: p.1, p.2)

/-- Scan the body of a quoted field, after its opening quote: a doubled
quote is one literal quote, a lone quote closes the field. -/
def parseQuotedBody (cs : List Char) : List Char × List Char :=
  match cs with
  | [] => ([], [])
  | c :: cs2 =>
    if c == '\"' then
      if cs2.head? == some '\"' then
        let p := parseQuotedBody cs2.tail
        ('\"' :: p.1, p.2)
      else ([], cs2)
    else
      let p := parseQuotedBody cs2
      (c :: p.1, p.2)
termination_by cs.length
decreasing_by
  · simp [List.length_tail]; omega
  · simp

/-- Scan one field: quoted when it opens with a quote, unquoted otherwise. -/
def parseField : List Char → List Char × List Char
  | [] => ([], [])
  | c :: cs => if c == '\"' then parseQuotedBody cs else takeField (c :: cs)

theorem takeField_length (cs : List Char) : (takeField cs).2.length ≤ cs.length := by
  induction cs with
  | nil => simp [takeField]
  | cons c cs ih =>
    by_cases h : (c == ',' || c == '\n') = true
    · simp [takeField, h]
    · simp only [takeField, h, if_neg, Bool.not_eq_true] at *
      simp only [h, if_false, List.length_cons]
      omega

theorem parseQuotedBody_length (cs : List Char) :
    (parseQuotedBody cs).2.length ≤ cs.length := by
  induction cs using parseQuotedBody.induct with
  | case1 => simp [parseQuotedBody]
  | case2 c cs2 hq hdq ih =>
    rw [parseQuotedBody, if_pos hq, if_pos hdq]
    simp only [List.length_cons]
    have := List.length_tail cs2
    omega
  | case3 c cs2 hq hdq =>
    rw [parseQuotedBody, if_pos hq, if_neg hdq]
    simp
  | case4 c cs2 hq ih =>
    rw [parseQuotedBody, if_neg hq]
    simp only [List.length_cons]
    omega

theorem parseField_length (cs : List Char) : (parseField cs).2.length ≤ cs.length := by
  cases cs with
  | nil => simp [parseField]
  | cons c cs =>
    by_cases h : (c == '\"') = true
    · rw [parseField, if_pos h]
      have := parseQuotedBody_length cs
      simp only [List.length_cons]
      omega
    · rw [parseField, if_neg h]
      exact takeField_length (c :: cs)

/-- Scan one record: fields separated by the delimiter, closed by the line
terminator (consumed) or the end of input.  A stray character after a
closing quote cannot occur in well-formed csv text; it is skipped. -/
def parseRecord (cs : List Char) : List (List Char) × List Char :=
  if h1 : (parseField cs).2.head? = some ',' then
    ((parseField cs).1 :: (parseRecord (parseField cs).2.tail).1,
      (parseRecord (parseField cs).2.tail).2)
  else if (parseField cs).2.head? = some '\n' then
    ([(parseField cs).1], (parseField cs).2.tail)
  else if (parseField cs).2 = [] then ([(parseField cs).1], [])
  else ([(parseField cs).1], (parseField cs).2.tail)
termination_by cs.length
decreasing_by
  all_goals
    have hle := parseField_length cs
    have hne : (parseField cs).2 ≠ [] := by
      intro hnil
      rw [hnil] at h1
      simp at h1
    have htl := List.length_tail (parseField cs).2
    have hpos := List.length_pos.mpr hne
    omega

theorem parseRecord_length (cs : List Char) : (parseRecord cs).2.length ≤ cs.length := by
  generalize hn : cs.length = n
  induction n using Nat.strong_induction_on generalizing cs with
  | _ n ih =>
    subst hn
    rw [parseRecord]
    have hle := parseField_length cs
    have htl := List.length_tail (parseField cs).2
    by_cases h1 : (parseField cs).2.head? = some ','
    · simp only [h1, dif_pos]
      have hne : (parseField cs).2 ≠ [] := by
        intro hnil
        rw [hnil] at h1
        simp at h1
      have hpos := List.length_pos.mpr hne
      have hrec := ih (parseField cs).2.tail.length (by omega) (parseField cs).2.tail rfl
      omega
    · simp only [h1, dif_neg, not_false_iff]
      by_cases h2 : (parseField cs).2.head? = some '\n'
      · simp only [h2, if_pos]
        omega
      · simp only [h2, if_neg, not_false_iff]
        by_cases h3 : (parseField cs).2 = []
        · simp only [h3, if_pos]
          simp
        · simp only [h3, if_neg, not_false_iff]
          omega

/-- `parseField` either consumes at least one character, or consumes
nothing because the input is empty or opens with a separator. -/
theorem parseField_consumed (cs : List Char) :
    (parseField cs).2.length < cs.length ∨
      ((parseField cs).2 = cs ∧
        (cs = [] ∨ cs.head? = some ',' ∨ cs.head? = some '\n')) := by
  cases cs with
  | nil => right; exact ⟨rfl, Or.inl rfl⟩
  | cons c cs =>
    by_cases hq : (c == '\"') = true
    · left
      rw [parseField, if_pos hq]
      have := parseQuotedBody_length cs
      simp only [List.length_cons]
      omega
    · rw [parseField, if_neg hq]
      by_cases hs : (c == ',' || c == '\n') = true
      · right
        rw [takeField, if_pos hs]
        refine ⟨rfl, Or.inr ?_⟩
        rcases Bool.or_eq_true_iff.mp hs with h | h
        · exact Or.inl (by simp [beq_iff_eq.mp h])
        · exact Or.inr (by simp [beq_iff_eq.mp h])
      · left
        rw [takeField, if_neg hs]
        have := takeField_length cs
        simp only [List.length_cons]
        omega

theorem parseRecord_lt (cs : List Char) (hne : cs ≠ []) :
    (parseRecord cs).2.length < cs.length := by
  rw [parseRecord]
  have hle := parseField_length cs
  have htl := List.length_tail (parseField cs).2
  by_cases h1 : (parseField cs).2.head? = some ','
  · simp only [h1, dif_pos]
    have hrne : (parseField cs).2 ≠ [] := by
      intro h
      rw [h] at h1
      simp at h1
    have hrec := parseRecord_length (parseField cs).2.tail
    have hpos := List.length_pos.mpr hrne
    omega
  · simp only [h1, dif_neg, not_false_iff]
    by_cases h2 : (parseField cs).2.head? = some '\n'
    · simp only [h2, if_pos]
      have hrne : (parseField cs).2 ≠ [] := by
        intro h
        rw [h] at h2
        simp at h2
      have hpos := List.length_pos.mpr hrne
      omega
    · simp only [h2, if_neg, not_false_iff]
      by_cases h3 : (parseField cs).2 = []
      · simp only [h3, if_pos]
        have := List.length_pos.mpr hne
        simpa using this
      · simp only [h3, if_neg, not_false_iff]
        rcases parseField_consumed cs with h | ⟨heq, hsep⟩
        · omega
        · exfalso
          rcases hsep with h | h | h
          · exact hne h
          · exact h1 (by rw [heq, h])
          · exact h2 (by rw [heq, h])


/-- Split the whole input into records. -/
def parseRecords (cs : List Char) : List (List (List Char)) :=
  if h : cs = [] then []
  else (parseRecord cs).1 :: parseRecords (parseRecord cs).2
termination_by cs.length
decreasing_by exact parseRecord_lt cs h

/-- `pd.read_csv` on the produced text, at the csv text level: the list of
records, each a list of field strings (the first record is the header). -/
def read_csv (s : String) : List (List String) :=
  (parseRecords s.data).map (fun r => r.map String.mk)

/-!
Round-trip lemmas: parsing a serialized record recovers the fields.
-/

theorem takeField_append (f rest : List Char) (hf : needsQuoting f = false)
    (hr : rest = [] ∨ rest.head? = some ',' ∨ rest.head? = some '\n') :
    takeField (f ++ rest) = (f, rest) := by
  induction f with
  | nil =>
    rw [List.nil_append]
    rcases hr with h | h | h
    · subst h; rfl
    · rcases rest with _ | ⟨c, rest⟩
      · simp at h
      · simp only [List.head?_cons, Option.some_inj] at h
        subst h
        rw [takeField]
        simp
    · rcases rest with _ | ⟨c, rest⟩
      · simp at h
      · simp only [List.head?_cons, Option.some_inj] at h
        subst h
        rw [takeField]
        simp
  | cons c f ih =>
    rw [needsQuoting, List.any_cons] at hf
    rcases Bool.or_eq_false_iff.mp hf with ⟨hc, hf2⟩
    have hc2 : (c == ',' || c == '\n') = false := by
      rcases Bool.or_eq_false_iff.mp hc with ⟨hc3, _⟩
      rcases Bool.or_eq_false_iff.mp hc3 with ⟨hc4, _⟩
      rcases Bool.or_eq_false_iff.mp hc4 with ⟨hc5, _⟩
      simp_all
    rw [List.cons_append, takeField]
    simp only [hc2, Bool.false_eq_true, if_false]
    rw [ih hf2]

theorem parseQuotedBody_append (f rest : List Char) (hr : rest.head? ≠ some '\"') :
    parseQuotedBody ((f.map escapeChar).flatten ++ '\"' :: rest) = (f, rest) := by
  induction f with
  | nil =>
    simp only [List.map_nil, List.flatten_nil, List.nil_append]
    rw [parseQuotedBody]
    simp only [beq_self_eq_true, if_true]
    have : (rest.head? == some '\"') = false := by
      simp only [beq_eq_false_iff_ne, ne_eq]
      exact hr
    simp [this]
  | cons c f ih =>
    by_cases hq : c = '\"'
    · subst hq
      simp only [List.map_cons, List.flatten_cons, escapeChar, beq_self_eq_true, if_true]
      rw [List.cons_append, List.cons_append, parseQuotedBody]
      simp only [List.singleton_append, beq_self_eq_true, if_true, List.head?_cons,
        List.tail_cons, List.cons_append, List.nil_append]
      rw [ih]
    · have hq2 : (c == '\"') = false := beq_eq_false_iff_ne.mpr hq
      simp only [List.map_cons, List.flatten_cons, escapeChar, hq2, Bool.false_eq_true,
        if_false, List.singleton_append]
      rw [List.cons_append, parseQuotedBody]
      simp only [hq2, Bool.false_eq_true, if_false]
      rw [ih]

theorem parseField_append (f rest : List Char)
    (hr : rest = [] ∨ rest.head? = some ',' ∨ rest.head? = some '\n') :
    parseField (escapeField f ++ rest) = (f, rest) := by
  have hrq : rest.head? ≠ some '\"' := by
    rcases hr with h | h | h <;> simp [h]
  by_cases hf : needsQuoting f = true
  · rw [escapeField, if_pos hf]
    have hsh : ('\"' :: (f.map escapeChar).flatten ++ ['\"']) ++ rest =
        '\"' :: ((f.map escapeChar).flatten ++ '\"' :: rest) := by
      simp [List.append_assoc]
    rw [hsh, parseField]
    simp only [beq_self_eq_true, if_true]
    exact parseQuotedBody_append f rest hrq
  · have hf2 : needsQuoting f = false := Bool.not_eq_true _ ▸ Bool.eq_false_iff.mpr hf
    rw [escapeField, if_neg hf]
    rcases f with _ | ⟨c, f⟩
    · rw [List.nil_append]
      rcases rest with _ | ⟨c, rest⟩
      · rfl
      · have hc : (c == '\"') = false := by
          rcases hr with h | h | h
          · simp at h
          · simp only [List.head?_cons, Option.some_inj] at h
            subst h; rfl
          · simp only [List.head?_cons, Option.some_inj] at h
            subst h; rfl
        rw [parseField, hc]
        simp only [Bool.false_eq_true, if_false]
        exact takeField_append [] (c :: rest) rfl hr
    · have hc : (c == '\"') = false := by
        rw [needsQuoting, List.any_cons] at hf2
        rcases Bool.or_eq_false_iff.mp hf2 with ⟨hcall, _⟩
        rcases Bool.or_eq_false_iff.mp hcall with ⟨hc3, _⟩
        rcases Bool.or_eq_false_iff.mp hc3 with ⟨hc2, _⟩
        rcases Bool.or_eq_false_iff.mp hc2 with ⟨_, hcq⟩
        exact hcq
      rw [List.cons_append, parseField, hc]
      simp only [Bool.false_eq_true, if_false]
      rw [← List.cons_append]
      exact takeField_append (c :: f) rest hf2 hr

theorem parseRecord_serialize (fs : List (List Char)) (hfs : fs ≠ []) (rest : List Char) :
    parseRecord (serializeRecord fs ++ '\n' :: rest) = (fs, rest) := by
  induction fs with
  | nil => exact absurd rfl hfs
  | cons f fs ih =>
    rcases fs with _ | ⟨f2, fs⟩
    · rw [serializeRecord, parseRecord]
      rw [parseField_append f ('\n' :: rest) (Or.inr (Or.inr rfl))]
      simp
    · have hser : serializeRecord (f :: f2 :: fs) =
          escapeField f ++ ',' :: serializeRecord (f2 :: fs) := rfl
      rw [hser]
      have hassoc :
          (escapeField f ++ ',' :: serializeRecord (f2 :: fs)) ++ '\n' :: rest =
            escapeField f ++ ',' :: (serializeRecord (f2 :: fs) ++ '\n' :: rest) := by
        simp [List.append_assoc]
      rw [hassoc, parseRecord]
      rw [parseField_append f (',' :: (serializeRecord (f2 :: fs) ++ '\n' :: rest))
        (Or.inr (Or.inl rfl))]
      simp only [List.head?_cons, Option.some_inj, List.tail_cons, dif_pos]
      rw [ih (List.cons_ne_nil f2 fs)]

theorem parseRecords_serialize (recs : List (List (List Char)))
    (h : ∀ r ∈ recs, r ≠ []) :
    parseRecords ((recs.map (fun r => serializeRecord r ++ ['\n'])).flatten) = recs := by
  induction recs with
  | nil => rw [List.map_nil, List.flatten_nil, parseRecords]; rfl
  | cons r recs ih =>
    rw [List.map_cons, List.flatten_cons]
    have hassoc :
        (serializeRecord r ++ ['\n']) ++ ((recs.map (fun x => serializeRecord x ++ ['\n'])).flatten) =
          serializeRecord r ++ '\n' :: ((recs.map (fun x => serializeRecord x ++ ['\n'])).flatten) := by
      simp [List.append_assoc]
    rw [hassoc, parseRecords]
    have hne : serializeRecord r ++ '\n' :: ((recs.map (fun x => serializeRecord x ++ ['\n'])).flatten) ≠ [] := by
      simp
    rw [dif_neg hne]
    rw [parseRecord_serialize r (h r (List.mem_cons_self r recs)) _]
    rw [ih (fun x hx => h x (List.mem_cons_of_mem r hx))]

theorem mk_data (s : String) : String.mk s.data = s := rfl

theorem parseRecords_to_csv (rs : List AnalysisResult) (h : rs ≠ []) :
    parseRecords (to_csv rs) = csvHeaderFields :: rs.map resultFields := by
  rcases rs with _ | ⟨r, rs⟩
  · exact absurd rfl h
  · rw [to_csv]
    have hshape : serializeRecord csvHeaderFields ++ '\n' ::
        ((r :: rs).map (fun x => serializeRecord (resultFields x) ++ ['\n'])).flatten =
        ((csvHeaderFields :: (r :: rs).map resultFields).map
          (fun q => serializeRecord q ++ ['\n'])).flatten := by
      simp [Function.comp_def, List.append_assoc]
    rw [hshape]
    refine parseRecords_serialize _ ?_
    intro q hq
    rcases List.mem_cons.mp hq with hq | hq
    · subst hq
      simp [csvHeaderFields]
    · obtain ⟨x, _, rfl⟩ := List.mem_map.mp hq
      simp [resultFields]

theorem parseRecord_newline : parseRecord ['\n'] = ([[]], []) := by
  rw [parseRecord]
  have h1 : parseField ['\n'] = ([], ['\n']) := rfl
  rw [h1]
  rw [dif_neg (by decide)]
  rw [if_pos (by decide)]
  rfl

theorem parseRecords_to_csv_nil : parseRecords (to_csv []) = [[[]]] := by
  rw [to_csv, parseRecords]
  rw [dif_neg (by simp)]
  rw [parseRecord_newline]
  simp [parseRecords]

theorem read_csv_serializeCSV (rs : List AnalysisResult) (h : rs ≠ []) :
    read_csv (serializeCSV rs) =
      ["product_name", "review", "rating", "analysis"] ::
        rs.map (fun r => [r.product_name, r.review, r.rating, r.analysis]) := by
  rw [read_csv, serializeCSV, show (String.mk (to_csv rs)).data = to_csv rs from rfl]
  rw [parseRecords_to_csv rs h]
  simp [csvHeaderFields, resultFields, mk_data]

theorem read_csv_serializeCSV_nil : read_csv (serializeCSV []) = [[""]] := by
  rw [read_csv, serializeCSV, show (String.mk (to_csv [])).data = to_csv [] from rfl]
  rw [parseRecords_to_csv_nil]
  rfl

/-- Does `pat` occur at the start of `cs`? -/
def startsWithChars : List Char → List Char → Bool
  | _, [] => true
  | [], _ :: _ => false
  | c :: cs, p :: ps => c == p && startsWithChars cs ps

/-- Does `pat` occur anywhere inside `cs`? -/
def hasSubstring : List Char → List Char → Bool
  | [], pat => startsWithChars [] pat
  | c :: cs, pat => startsWithChars (c :: cs) pat || hasSubstring cs pat

theorem hasSubstring_cons (c : Char) (cs pat : List Char)
    (h : hasSubstring cs pat = true) : hasSubstring (c :: cs) pat = true := by
  rw [hasSubstring, h]
  simp

theorem hasSubstring_append_left (xs ys pat : List Char)
    (h : hasSubstring ys pat = true) : hasSubstring (xs ++ ys) pat = true := by
  induction xs with
  | nil => simpa using h
  | cons x xs ih => exact hasSubstring_cons x (xs ++ ys) pat ih

/-- Re-interpret one parsed CSV data row as an AnalysisResult (the four
columns in header order). -/
def rowToResult : List String → Option AnalysisResult
  | [pn, rv, rt, a] =>
    some { product_name := pn, review := rv, rating := rt, analysis := a }
  | _ => none

/-!
Concrete fixtures, taken from the concrete scenario in the specification:
two rows with a `review_text` column, a stub service succeeding on the
first row and timing out on the second.
-/

/-- A service whose every call fails. -/
def svcFailAll : String → Except String String :=
  fun _ => Except.error "quota exceeded"

/-- The stub response text of the specification's concrete scenario. -/
def stubText : String :=
  "1. Sentiment: Positive\n2. Key points: comfortable\n3. Recommendation: Yes"

/-- A service returning `stubText`, except a timeout on the second
sample row's prompt. -/
def svcStub : String → Except String String :=
  fun p => if p = prompt "Too tight" "2" then Except.error "timeout"
           else Except.ok stubText

/-- The specification's sample input rows. -/
def sampleRows : List Row :=
  [[("product_name", "Shoe A"), ("review_text", "Great fit"), ("rating", "5")],
   [("product_name", "Shoe B"), ("review_text", "Too tight"), ("rating", "2")]]

/-- A small nonempty result list. -/
def sampleResults : List AnalysisResult :=
  [{ product_name := "Shoe A", review := "Great fit", rating := "5", analysis := "ok" }]

/-!
Characterization of the analysis loop.
-/

theorem analysisText_ok (svc : String → Except String String) (p t : String)
    (h : svc p = Except.ok t) : analysisText svc p = strip t := by
  rw [analysisText, h]

theorem analysisText_error (svc : String → Except String String) (p e : String)
    (h : svc p = Except.error e) :
    analysisText svc p = "Error: Could not analyze review. (" ++ e ++ ")" := by
  rw [analysisText, h]

theorem analyze_spec (svc : String → Except String String) (review_col : String)
    (rows : List Row)
    (h : ∀ row ∈ rows, (lookupField row review_col).isSome ∧
        (lookupField row "rating").isSome ∧ (lookupField row "product_name").isSome) :
    ∃ results, analyze svc review_col rows = some results ∧
      results.length = rows.length ∧
      ∀ (i : Nat) (hi : i < rows.length) (rv rt pn : String),
        lookupField rows[i] review_col = some rv →
        lookupField rows[i] "rating" = some rt →
        lookupField rows[i] "product_name" = some pn →
        results[i]? = some { product_name := pn, review := rv, rating := rt,
                             analysis := analysisText svc (prompt rv rt) } := by
  induction rows with
  | nil => exact ⟨[], rfl, rfl, fun i hi => absurd hi (by simp)⟩
  | cons row rest ih =>
    obtain ⟨h1, h2, h3⟩ := h row (List.mem_cons_self row rest)
    obtain ⟨rv0, hrv0⟩ := Option.isSome_iff_exists.mp h1
    obtain ⟨rt0, hrt0⟩ := Option.isSome_iff_exists.mp h2
    obtain ⟨pn0, hpn0⟩ := Option.isSome_iff_exists.mp h3
    have hrow : analyzeRow svc review_col row = some
        { product_name := pn0, review := rv0, rating := rt0,
          analysis := analysisText svc (prompt rv0 rt0) } := by
      rw [analyzeRow]
      simp [hrv0, hrt0, hpn0]
    obtain ⟨results, heq, hlen, hidx⟩ := ih (fun r hr => h r (List.mem_cons_of_mem row hr))
    refine ⟨{ product_name := pn0, review := rv0, rating := rt0,
              analysis := analysisText svc (prompt rv0 rt0) } :: results, ?_, ?_, ?_⟩
    · rw [analyze, hrow, heq]
    · simp [hlen]
    · intro i hi rv rt pn hl1 hl2 hl3
      cases i with
      | zero =>
        simp only [List.getElem_cons_zero] at hl1 hl2 hl3
        rw [hrv0] at hl1
        rw [hrt0] at hl2
        rw [hpn0] at hl3
        obtain rfl := Option.some_inj.mp hl1
        obtain rfl := Option.some_inj.mp hl2
        obtain rfl := Option.some_inj.mp hl3
        simp
      | succ n =>
        simp only [List.getElem_cons_succ] at hl1 hl2 hl3
        have hn : n < rest.length := by
          simp only [List.length_cons] at hi
          omega
        have := hidx n hn rv rt pn hl1 hl2 hl3
        simpa using this

/-- A row missing a looked-up field makes its iteration raise. -/
theorem analyzeRow_none (svc : String → Except String String) (review_col : String)
    (row : Row)
    (h : lookupField row "product_name" = none ∨ lookupField row "rating" = none) :
    analyzeRow svc review_col row = none := by
  rw [analyzeRow]
  cases hrv : lookupField row review_col with
  | none => rfl
  | some rv =>
    cases hrt : lookupField row "rating" with
    | none => rfl
    | some rt =>
      rcases h with h | h
      · simp [h]
      · rw [h] at hrt
        cases hrt


/-!
The claims.
-/

/-- C1: for every input sequence of N rows (each carrying the resolved
review column, `rating` and `product_name` fields) and every service
behavior — in particular one whose every call fails — the analysis loop
produces exactly N results in input order, the i-th being
`{product_name := row_i.product_name, review := row_i[resolvedColumn],
rating := row_i.rating, analysis}` with `analysis` the service's response
text stripped of leading and trailing whitespace on success. -/
theorem analyzer_length_and_order (svc : String → Except String String)
    (review_col : String) (rows : List Row)
    (h : ∀ row ∈ rows, (lookupField row review_col).isSome ∧
        (lookupField row "rating").isSome ∧ (lookupField row "product_name").isSome) :
    ∃ results, analyze svc review_col rows = some results ∧
      results.length = rows.length ∧
      (∀ (i : Nat) (hi : i < rows.length) (rv rt pn : String),
        lookupField rows[i] review_col = some rv →
        lookupField rows[i] "rating" = some rt →
        lookupField rows[i] "product_name" = some pn →
        results[i]? = some { product_name := pn, review := rv, rating := rt,
                             analysis := analysisText svc (prompt rv rt) }) ∧
      (∀ p t, svc p = Except.ok t → analysisText svc p = strip t) := by
  obtain ⟨results, h1, h2, h3⟩ := analyze_spec svc review_col rows h
  exact ⟨results, h1, h2, h3, fun p t ht => analysisText_ok svc p t ht⟩

theorem analyzer_length_and_order_witness :
    (∀ row ∈ sampleRows, (lookupField row "review_text").isSome ∧
        (lookupField row "rating").isSome ∧ (lookupField row "product_name").isSome) ∧
    (∃ results, analyze svcFailAll "review_text" sampleRows = some results ∧
      results.length = sampleRows.length ∧
      (∀ (i : Nat) (hi : i < sampleRows.length) (rv rt pn : String),
        lookupField sampleRows[i] "review_text" = some rv →
        lookupField sampleRows[i] "rating" = some rt →
        lookupField sampleRows[i] "product_name" = some pn →
        results[i]? = some { product_name := pn, review := rv, rating := rt,
                             analysis := analysisText svcFailAll (prompt rv rt) }) ∧
      (∀ p t, svcFailAll p = Except.ok t → analysisText svcFailAll p = strip t)) :=
  ⟨by decide, analyzer_length_and_order svcFailAll "review_text" sampleRows (by decide)⟩

/-- C2: when the service call for a row fails with message `e`, that row's
analysis is exactly the literal string
`"Error: Could not analyze review. (" ++ e ++ ")"` (in particular it
starts with `"Error: Could not analyze review."`), the loop still yields
one result per row, and every row whose call succeeds carries the
service's actual (stripped) response text. -/
theorem analyzer_failure_containment (svc : String → Except String String)
    (review_col : String) (rows : List Row)
    (h : ∀ row ∈ rows, (lookupField row review_col).isSome ∧
        (lookupField row "rating").isSome ∧ (lookupField row "product_name").isSome) :
    ∃ results, analyze svc review_col rows = some results ∧
      results.length = rows.length ∧
      (∀ (k : Nat) (hk : k < rows.length) (rv rt e : String),
        lookupField rows[k] review_col = some rv →
        lookupField rows[k] "rating" = some rt →
        svc (prompt rv rt) = Except.error e →
        results[k]?.map AnalysisResult.analysis =
          some ("Error: Could not analyze review. (" ++ e ++ ")") ∧
        ∃ s, results[k]?.map AnalysisResult.analysis =
          some ("Error: Could not analyze review." ++ s)) ∧
      (∀ (i : Nat) (hi : i < rows.length) (rv rt t : String),
        lookupField rows[i] review_col = some rv →
        lookupField rows[i] "rating" = some rt →
        svc (prompt rv rt) = Except.ok t →
        results[i]?.map AnalysisResult.analysis = some (strip t)) := by
  obtain ⟨results, h1, h2, h3⟩ := analyze_spec svc review_col rows h
  refine ⟨results, h1, h2, ?_, ?_⟩
  · intro k hk rv rt e hl1 hl2 hsvc
    obtain ⟨_, _, hpn⟩ := h rows[k] (List.getElem_mem hk)
    obtain ⟨pn, hpn2⟩ := Option.isSome_iff_exists.mp hpn
    have hres := h3 k hk rv rt pn hl1 hl2 hpn2
    rw [hres]
    rw [analysisText_error svc (prompt rv rt) e hsvc]
    constructor
    · rfl
    · refine ⟨" (" ++ e ++ ")", ?_⟩
      have hsplit : "Error: Could not analyze review. (" ++ e ++ ")" =
          "Error: Could not analyze review." ++ (" (" ++ e ++ ")") := by
        have hlit : "Error: Could not analyze review. (" =
            "Error: Could not analyze review." ++ " (" := by decide
        rw [hlit]
        simp only [String.append_assoc]
      rw [← hsplit]
      rfl
  · intro i hi rv rt t hl1 hl2 hsvc
    obtain ⟨_, _, hpn⟩ := h rows[i] (List.getElem_mem hi)
    obtain ⟨pn, hpn2⟩ := Option.isSome_iff_exists.mp hpn
    have hres := h3 i hi rv rt pn hl1 hl2 hpn2
    rw [hres]
    rw [analysisText_ok svc (prompt rv rt) t hsvc]
    rfl

theorem analyzer_failure_containment_witness :
    (∀ row ∈ sampleRows, (lookupField row "review_text").isSome ∧
        (lookupField row "rating").isSome ∧ (lookupField row "product_name").isSome) ∧
    (∃ results, analyze svcStub "review_text" sampleRows = some results ∧
      results.length = sampleRows.length ∧
      (∀ (k : Nat) (hk : k < sampleRows.length) (rv rt e : String),
        lookupField sampleRows[k] "review_text" = some rv →
        lookupField sampleRows[k] "rating" = some rt →
        svcStub (prompt rv rt) = Except.error e →
        results[k]?.map AnalysisResult.analysis =
          some ("Error: Could not analyze review. (" ++ e ++ ")") ∧
        ∃ s, results[k]?.map AnalysisResult.analysis =
          some ("Error: Could not analyze review." ++ s)) ∧
      (∀ (i : Nat) (hi : i < sampleRows.length) (rv rt t : String),
        lookupField sampleRows[i] "review_text" = some rv →
        lookupField sampleRows[i] "rating" = some rt →
        svcStub (prompt rv rt) = Except.ok t →
        results[i]?.map AnalysisResult.analysis = some (strip t))) :=
  ⟨by decide, analyzer_failure_containment svcStub "review_text" sampleRows (by decide)⟩

/-- C3: whenever at least one candidate of
`["review", "review_text", "text", "comment"]` is among the dataset's
columns, the resolver picks the candidate of least priority index among
those present — independently of its position among the columns — and in
particular a dataset containing "review" resolves to "review" (so one with
both "review" and "text" does). -/
theorem resolver_priority (cols : List String)
    (h : ∃ c ∈ possible_review_cols, cols.contains c = true) :
    ∃ c, resolveReviewCol cols = ColumnResolution.found c ∧
      c ∈ possible_review_cols ∧ cols.contains c = true ∧
      (∀ d ∈ possible_review_cols, cols.contains d = true →
        possible_review_cols.indexOf c ≤ possible_review_cols.indexOf d) ∧
      (cols.contains "review" = true → c = "review") := by
  cases h1 : cols.contains "review" with
  | true =>
    refine ⟨"review", ?_, by simp [possible_review_cols], h1, ?_, fun _ => rfl⟩
    · rw [resolveReviewCol, findReviewCol, possible_review_cols]
      rw [List.find?_cons_of_pos _ h1]
    · intro d hd hcd
      have h0 : possible_review_cols.indexOf "review" = 0 := by decide
      rw [h0]
      exact Nat.zero_le _
  | false =>
    cases h2 : cols.contains "review_text" with
    | true =>
      refine ⟨"review_text", ?_, by simp [possible_review_cols], h2, ?_, ?_⟩
      · rw [resolveReviewCol, findReviewCol, possible_review_cols]
        rw [List.find?_cons_of_neg _ (by simpa using h1), List.find?_cons_of_pos _ h2]
      · intro d hd hcd
        simp only [possible_review_cols, List.mem_cons, List.not_mem_nil, or_false] at hd
        rcases hd with rfl | rfl | rfl | rfl
        · rw [h1] at hcd
          exact Bool.noConfusion hcd
        · exact Nat.le_refl _
        · decide
        · decide
      · intro hcr
        exact Bool.noConfusion hcr
    | false =>
      cases h3 : cols.contains "text" with
      | true =>
        refine ⟨"text", ?_, by simp [possible_review_cols], h3, ?_, ?_⟩
        · rw [resolveReviewCol, findReviewCol, possible_review_cols]
          rw [List.find?_cons_of_neg _ (by simpa using h1), List.find?_cons_of_neg _ (by simpa using h2),
            List.find?_cons_of_pos _ h3]
        · intro d hd hcd
          simp only [possible_review_cols, List.mem_cons, List.not_mem_nil, or_false] at hd
          rcases hd with rfl | rfl | rfl | rfl
          · rw [h1] at hcd
            exact Bool.noConfusion hcd
          · rw [h2] at hcd
            exact Bool.noConfusion hcd
          · exact Nat.le_refl _
          · decide
        · intro hcr
          exact Bool.noConfusion hcr
      | false =>
        cases h4 : cols.contains "comment" with
        | true =>
          refine ⟨"comment", ?_, by simp [possible_review_cols], h4, ?_, ?_⟩
          · rw [resolveReviewCol, findReviewCol, possible_review_cols]
            rw [List.find?_cons_of_neg _ (by simpa using h1), List.find?_cons_of_neg _ (by simpa using h2),
              List.find?_cons_of_neg _ (by simpa using h3), List.find?_cons_of_pos _ h4]
          · intro d hd hcd
            simp only [possible_review_cols, List.mem_cons, List.not_mem_nil, or_false] at hd
            rcases hd with rfl | rfl | rfl | rfl
            · rw [h1] at hcd
              exact Bool.noConfusion hcd
            · rw [h2] at hcd
              exact Bool.noConfusion hcd
            · rw [h3] at hcd
              exact Bool.noConfusion hcd
            · exact Nat.le_refl _
          · intro hcr
            exact Bool.noConfusion hcr
        | false =>
          exfalso
          obtain ⟨c, hc, hcc⟩ := h
          simp only [possible_review_cols, List.mem_cons, List.not_mem_nil, or_false] at hc
          rcases hc with rfl | rfl | rfl | rfl
          · rw [h1] at hcc
            exact Bool.noConfusion hcc
          · rw [h2] at hcc
            exact Bool.noConfusion hcc
          · rw [h3] at hcc
            exact Bool.noConfusion hcc
          · rw [h4] at hcc
            exact Bool.noConfusion hcc

theorem resolver_priority_witness :
    (∃ c ∈ possible_review_cols, (["stars", "text", "review"] : List String).contains c = true) ∧
    (∃ c, resolveReviewCol ["stars", "text", "review"] = ColumnResolution.found c ∧
      c ∈ possible_review_cols ∧ (["stars", "text", "review"] : List String).contains c = true ∧
      (∀ d ∈ possible_review_cols, (["stars", "text", "review"] : List String).contains d = true →
        possible_review_cols.indexOf c ≤ possible_review_cols.indexOf d) ∧
      ((["stars", "text", "review"] : List String).contains "review" = true → c = "review")) :=
  ⟨by decide, resolver_priority ["stars", "text", "review"] (by decide)⟩

/-- C4: when no candidate of the priority list is among the dataset's
columns (in particular for no columns at all), resolution takes the error
branch carrying exactly the list of available columns — it never falls
back to some other column. -/
theorem resolver_no_fallback (cols : List String)
    (h : ∀ c ∈ possible_review_cols, cols.contains c = false) :
    resolveReviewCol cols = ColumnResolution.columnNotFound cols := by
  have hf : findReviewCol cols = none := by
    rw [findReviewCol]
    rw [List.find?_eq_none]
    intro c hc
    simpa using h c hc
  rw [resolveReviewCol, hf]

theorem resolver_no_fallback_witness :
    (∀ c ∈ possible_review_cols, (["name", "stars"] : List String).contains c = false) ∧
    resolveReviewCol ["name", "stars"] = ColumnResolution.columnNotFound ["name", "stars"] :=
  ⟨by decide, resolver_no_fallback ["name", "stars"] (by decide)⟩

set_option maxRecDepth 8192 in
/-- C5: the prompt sent to the service for a row is the fixed template —
kept verbatim as the three literal segments `promptPre`, `promptMid`,
`promptPost` — formatted with exactly the row's resolved-column text and
rating, and it contains the instruction lines constraining the sentiment
to Positive/Negative/Neutral, asking for 2-3 bullet key points, and
constraining the recommendation to Yes/No/Maybe with a brief reason. -/
theorem prompt_template_contract (svc : String → Except String String)
    (review_col : String) (row : Row) (rv rt pn : String)
    (h1 : lookupField row review_col = some rv)
    (h2 : lookupField row "rating" = some rt)
    (h3 : lookupField row "product_name" = some pn) :
    analyzeRow svc review_col row =
      some { product_name := pn, review := rv, rating := rt,
             analysis := analysisText svc (prompt rv rt) } ∧
    prompt rv rt = promptPre ++ rv ++ promptMid ++ rt ++ promptPost ∧
    hasSubstring (prompt rv rt).data
      "1. Sentiment: (Positive / Negative / Neutral)".data = true ∧
    hasSubstring (prompt rv rt).data
      "2. Key points: (Bullet list of 2-3 main pros/cons)".data = true ∧
    hasSubstring (prompt rv rt).data
      "3. Recommendation: (Yes / No / Maybe) - Brief reason".data = true := by
  have hdata : (prompt rv rt).data =
      promptPre.data ++ (rv.data ++ (promptMid.data ++ (rt.data ++ promptPost.data))) := by
    simp only [prompt, String.data_append, List.append_assoc]
  refine ⟨?_, rfl, ?_, ?_, ?_⟩
  · rw [analyzeRow]
    simp [h1, h2, h3]
  · rw [hdata]
    exact hasSubstring_append_left _ _ _ (hasSubstring_append_left _ _ _
      (hasSubstring_append_left _ _ _ (hasSubstring_append_left _ _ _ (by decide))))
  · rw [hdata]
    exact hasSubstring_append_left _ _ _ (hasSubstring_append_left _ _ _
      (hasSubstring_append_left _ _ _ (hasSubstring_append_left _ _ _ (by decide))))
  · rw [hdata]
    exact hasSubstring_append_left _ _ _ (hasSubstring_append_left _ _ _
      (hasSubstring_append_left _ _ _ (hasSubstring_append_left _ _ _ (by decide))))

theorem prompt_template_contract_witness :
    (lookupField [("product_name", "Shoe A"), ("review_text", "Great fit"),
        ("rating", "5")] "review_text" = some "Great fit") ∧
    (lookupField [("product_name", "Shoe A"), ("review_text", "Great fit"),
        ("rating", "5")] "rating" = some "5") ∧
    (lookupField [("product_name", "Shoe A"), ("review_text", "Great fit"),
        ("rating", "5")] "product_name" = some "Shoe A") ∧
    (analyzeRow svcStub "review_text" [("product_name", "Shoe A"),
        ("review_text", "Great fit"), ("rating", "5")] =
      some { product_name := "Shoe A", review := "Great fit", rating := "5",
             analysis := analysisText svcStub (prompt "Great fit" "5") } ∧
    prompt "Great fit" "5" = promptPre ++ "Great fit" ++ promptMid ++ "5" ++ promptPost ∧
    hasSubstring (prompt "Great fit" "5").data
      "1. Sentiment: (Positive / Negative / Neutral)".data = true ∧
    hasSubstring (prompt "Great fit" "5").data
      "2. Key points: (Bullet list of 2-3 main pros/cons)".data = true ∧
    hasSubstring (prompt "Great fit" "5").data
      "3. Recommendation: (Yes / No / Maybe) - Brief reason".data = true) :=
  ⟨by decide, by decide, by decide,
    prompt_template_contract svcStub "review_text"
      [("product_name", "Shoe A"), ("review_text", "Great fit"), ("rating", "5")]
      "Great fit" "5" "Shoe A" (by decide) (by decide) (by decide)⟩

/-- C9: a processed row lacking the `product_name` or `rating` field makes
its own iteration raise an unhandled lookup error, and that error aborts
the whole analysis run (no result list is produced at all) — unlike a
service failure, which is recorded as that row's analysis text. -/
theorem missing_field_aborts_run (svc : String → Except String String)
    (review_col : String) (rows : List Row) (row : Row)
    (hmem : row ∈ rows)
    (hmiss : lookupField row "product_name" = none ∨ lookupField row "rating" = none) :
    analyzeRow svc review_col row = none ∧
    analyze svc review_col rows = none := by
  refine ⟨analyzeRow_none svc review_col row hmiss, ?_⟩
  induction rows with
  | nil => cases hmem
  | cons r rest ih =>
    rcases List.mem_cons.mp hmem with rfl | hmem2
    · rw [analyze, analyzeRow_none svc review_col row hmiss]
    · rw [analyze]
      cases hr : analyzeRow svc review_col r with
      | none => rfl
      | some x => rw [ih hmem2]

theorem missing_field_aborts_run_witness :
    ([("product_name", "Shoe A"), ("review", "good")] ∈
      ([[("product_name", "Shoe B"), ("review", "fine"), ("rating", "4")],
        [("product_name", "Shoe A"), ("review", "good")]] : List Row)) ∧
    (lookupField [("product_name", "Shoe A"), ("review", "good")] "product_name" = none ∨
      lookupField [("product_name", "Shoe A"), ("review", "good")] "rating" = none) ∧
    (analyzeRow svcFailAll "review" [("product_name", "Shoe A"), ("review", "good")] = none ∧
      analyze svcFailAll "review"
        [[("product_name", "Shoe B"), ("review", "fine"), ("rating", "4")],
         [("product_name", "Shoe A"), ("review", "good")]] = none) :=
  ⟨by decide, by decide,
    missing_field_aborts_run svcFailAll "review"
      [[("product_name", "Shoe B"), ("review", "fine"), ("rating", "4")],
       [("product_name", "Shoe A"), ("review", "good")]]
      [("product_name", "Shoe A"), ("review", "good")] (by decide) (by decide)⟩

/-- C10: with the service fixed as a function of the prompt, the pipeline
is deterministic — the result sequence and output bytes do not depend on
the clock value or the inter-row delay, which affect only the time
component of the instrumented loop, and the downloadable bytes are a
function of the result sequence. -/
theorem pipeline_deterministic (svc : String → Except String String)
    (review_col : String) (rows : List Row) (d1 t1 d2 t2 : Nat) :
    (analyzeTimed svc review_col d1 rows t1).1 = (analyzeTimed svc review_col d2 rows t2).1 ∧
    (analyzeTimed svc review_col d1 rows t1).1 = analyze svc review_col rows ∧
    Option.map csvBytes (analyzeTimed svc review_col d1 rows t1).1 =
      Option.map csvBytes (analyzeTimed svc review_col d2 rows t2).1 ∧
    pipeline svc review_col rows = Option.map csvBytes (analyze svc review_col rows) := by
  have key : ∀ (rows : List Row) (delay t : Nat),
      (analyzeTimed svc review_col delay rows t).1 = analyze svc review_col rows := by
    intro rows
    induction rows with
    | nil => intro delay t; rfl
    | cons row rest ih =>
      intro delay t
      rw [analyzeTimed, analyze]
      cases h : analyzeRow svc review_col row with
      | none => rfl
      | some r =>
        have hrec := ih delay (t + delay)
        rcases hx : analyzeTimed svc review_col delay rest (t + delay) with ⟨o, t3⟩
        rw [hx] at hrec
        simp only at hrec
        rw [← hrec]
        cases o <;> rfl
  refine ⟨?_, key rows d1 t1, ?_, rfl⟩
  · rw [key rows d1 t1, key rows d2 t2]
  · rw [key rows d1 t1, key rows d2 t2]

/-- C6 (amended): for every nonempty result sequence, the assembler's
output is the UTF-8 encoding of a CSV whose first record is the header
`product_name,review,rating,analysis` followed by exactly one data record
per AnalysisResult, in input order, with no index column; the original
claim's universal quantification fails only at the empty sequence, where
the frame has no columns and the output is a single bare line terminator. -/
theorem assembler_csv_shape (rs : List AnalysisResult) (h : rs ≠ []) :
    csvBytes rs = utf8Encode (serializeCSV rs) ∧
    read_csv (serializeCSV rs) =
      ["product_name", "review", "rating", "analysis"] ::
        rs.map (fun r => [r.product_name, r.review, r.rating, r.analysis]) ∧
    (read_csv (serializeCSV rs)).length = rs.length + 1 ∧
    (∀ i : Nat, (read_csv (serializeCSV rs))[i + 1]? =
      (rs[i]?).map (fun r => [r.product_name, r.review, r.rating, r.analysis])) := by
  refine ⟨rfl, read_csv_serializeCSV rs h, ?_, ?_⟩
  · rw [read_csv_serializeCSV rs h]
    simp
  · intro i
    rw [read_csv_serializeCSV rs h]
    rw [List.getElem?_cons_succ, List.getElem?_map]

theorem assembler_csv_shape_witness :
    sampleResults ≠ [] ∧
    (csvBytes sampleResults = utf8Encode (serializeCSV sampleResults) ∧
    read_csv (serializeCSV sampleResults) =
      ["product_name", "review", "rating", "analysis"] ::
        sampleResults.map (fun r => [r.product_name, r.review, r.rating, r.analysis]) ∧
    (read_csv (serializeCSV sampleResults)).length = sampleResults.length + 1 ∧
    (∀ i : Nat, (read_csv (serializeCSV sampleResults))[i + 1]? =
      (sampleResults[i]?).map (fun r => [r.product_name, r.review, r.rating, r.analysis]))) :=
  ⟨by simp [sampleResults], assembler_csv_shape sampleResults (by simp [sampleResults])⟩

/-- C6 counterexample: at the empty result sequence the claimed header row
is absent — `pd.DataFrame([])` has no columns, so the serialized output is
a single line terminator whose only parsed record is one empty field, not
the four-column header. -/
theorem assembler_csv_shape_cex :
    serializeCSV [] = "\n" ∧
    read_csv (serializeCSV []) = [[""]] ∧
    read_csv (serializeCSV []) ≠
      ["product_name", "review", "rating", "analysis"] ::
        ([] : List AnalysisResult).map
          (fun r => [r.product_name, r.review, r.rating, r.analysis]) := by
  refine ⟨rfl, read_csv_serializeCSV_nil, ?_⟩
  rw [read_csv_serializeCSV_nil]
  simp

/-- C7 (amended): for zero input rows the analyzer returns the empty
result sequence, and the assembler emits a CSV consisting of a single
blank line — no header fields and no data rows — because the DataFrame
built from an empty list has no columns. -/
theorem empty_input_behavior (svc : String → Except String String)
    (review_col : String) :
    analyze svc review_col [] = some [] ∧
    serializeCSV [] = "\n" ∧
    read_csv (serializeCSV []) = [[""]] :=
  ⟨rfl, rfl, read_csv_serializeCSV_nil⟩

/-- C7 counterexample: the output for zero rows is not the claimed
header-only CSV `product_name,review,rating,analysis` — it is a bare line
terminator. -/
theorem empty_input_cex :
    serializeCSV [] = "\n" ∧
    serializeCSV [] ≠ "product_name,review,rating,analysis\n" :=
  ⟨rfl, by decide⟩

/-- C8: re-parsing the assembler's CSV output as CSV yields, after the
leading header record, exactly one record per AnalysisResult, in order,
field-for-field equal to (product_name, review, rating, analysis) — and
re-interpreting those records as AnalysisResults recovers the input
sequence. -/
theorem round_trip (rs : List AnalysisResult) :
    (read_csv (serializeCSV rs)).tail =
      rs.map (fun r => [r.product_name, r.review, r.rating, r.analysis]) ∧
    ((read_csv (serializeCSV rs)).tail).map rowToResult = rs.map Option.some := by
  rcases rs with _ | ⟨r, rs⟩
  · rw [read_csv_serializeCSV_nil]
    exact ⟨rfl, rfl⟩
  · rw [read_csv_serializeCSV _ (List.cons_ne_nil r rs)]
    refine ⟨rfl, ?_⟩
    rw [List.tail_cons, List.map_map]
    apply List.map_congr_left
    intro x _
    rfl

end ProductReviewer
